import Mathlib

/-!
# Verification of the `necs` entity-component runtime core

Shallow embedding of the C++ sources under `src/include/necs/`
(`IIDGenerator.h`, `CWorldObject.h`, `CPagedAllocator.h`,
`CMatrixAllocator.h`, `CEntityFactory.h`) together with theorems settling
the specification claims.

Modelling conventions:
* machine pointers are modelled as natural-number addresses (`0` = `nullptr`);
* `std::vector`/`std::list`/`std::queue` become `List` (queue front at the
  list head, push at the tail); `std::set` becomes `Finset`;
* a C++ operation that can `throw` or fail an `assert` returns an `Outcome`;
  `assert` failure (debug fatal abort) and a thrown exception are distinct
  constructors, since the former aborts the process while the latter
  propagates to the caller;
* the external `clow` primitives (`freelist`, `gpalloc`) are not part of this
  repository; they are modelled from their interface contract in the spec.
-/

namespace Necs

/-- The C++ exception kinds thrown by this codebase
(`std::invalid_argument`, `std::runtime_error`, `std::bad_alloc`). -/
inductive CppError : Type where
  | invalidArgument : CppError
  | runtimeError : CppError
  | badAlloc : CppError
deriving DecidableEq, Repr

/-- Result of running a C++ member function: a normal return, a thrown
exception (propagates to the caller, catchable), or a failed `assert`
(immediate fatal abort in a debug build). -/
inductive Outcome (α : Type) : Type where
  | ok (a : α) : Outcome α
  | thrown (e : CppError) : Outcome α
  | assertionFailed : Outcome α
deriving DecidableEq, Repr

/-! ## `IIDGenerator.h` — `IDGenerator<ID_T>` (instantiated at `ID_T = Nat`)

Fields of the C++ class: `released_ids : std::queue`, `in_use : std::set`,
`next_id`, `max_id`. -/

/-- State of `IDGenerator`. The queue's front is the head of the list. -/
structure IDGenerator where
  released_ids : List Nat
  in_use : Finset Nat
  next_id : Nat
  max_id : Nat
deriving DecidableEq

/-- `IDGenerator::IDGenerator(max_id_limit)`: `next_id = 0`. -/
def IDGenerator.mkGen (max_id_limit : Nat) : IDGenerator :=
  { released_ids := [], in_use := ∅, next_id := 0, max_id := max_id_limit }

/-- `IDGenerator::Generate()`: reuse the front of `released_ids` when
non-empty, otherwise take `next_id++`; throws `std::runtime_error`
("ID limit exceeded!") when `next_id > max_id`. -/
def IDGenerator.Generate (g : IDGenerator) : Outcome (Nat × IDGenerator) :=
  match g.released_ids with
  | id :: rest =>
      .ok (id, { g with released_ids := rest, in_use := insert id g.in_use })
  | [] =>
      if g.next_id > g.max_id then
        .thrown .runtimeError
      else
        .ok (g.next_id,
          { g with next_id := g.next_id + 1, in_use := insert g.next_id g.in_use })

/-- `IDGenerator::Release(id)`: throws `std::invalid_argument`
("ID not currently in use") when `id` is not in `in_use`; otherwise erases it
from `in_use` and pushes it at the back of `released_ids`. -/
def IDGenerator.Release (g : IDGenerator) (id : Nat) : Outcome IDGenerator :=
  if id ∈ g.in_use then
    .ok { g with in_use := g.in_use.erase id, released_ids := g.released_ids ++ [id] }
  else
    .thrown .invalidArgument

/-- `IDGenerator::IsUsed(id)`. -/
def IDGenerator.IsUsed (g : IDGenerator) (id : Nat) : Bool :=
  id ∈ g.in_use

/-- `IDGenerator::GetMaxId()` (returns `next_id`, the high-water mark). -/
def IDGenerator.GetMaxId (g : IDGenerator) : Nat :=
  g.next_id

/-! ## `CWorldObject.h` — CDO metadata -/

/-- `alignof(std::max_align_t)` on the reference platform (x86-64). -/
def alignof_max_align_t : Nat := 16

/-- Round-to-nearest-even conversion of a `uint64_t` to an IEEE-754
`double` (53-bit significand), as performed by the implicit conversion in
`log2(value)`: values below `2^53` are exactly representable; for larger
values the low `log2(v) - 52` bits are rounded to nearest, ties to even.
The result is returned as the exact natural number the `double` denotes. -/
def toDouble (v : Nat) : Nat :=
  if v < 2 ^ 53 then v
  else
    let e := Nat.log2 v - 52
    let q := v / 2 ^ e
    let r := v % 2 ^ e
    let half := 2 ^ (e - 1)
    let q2 := if half < r ∨ (r = half ∧ q % 2 = 1) then q + 1 else q
    q2 * 2 ^ e

/-- `IsPowerOfTwo(value)` from `CWorldObject.h`: for `value >= 2` the source
tests `std::floor(log2(value)) == log2(value)` on `double`s. The argument is
first converted to `double` (modelled exactly by `toDouble`, so e.g.
`2^53 + 1` becomes `2^53`); `log2` is then idealized as exact-real, which is
what every C library computes whenever the converted value is a power of two
(the result is exactly integral) and whenever the exact `log2` is farther
from an integer than the library's rounding error — in particular on all of
`[2, 2^32)`. For converted values within a few ulp of a power of two at
`2^48` and above, the library's last-bit rounding decides the outcome; the
theorems below therefore only evaluate this test on powers of two and on the
small range, where the model provably matches the code. For `value < 2` the
source returns `false` (in particular `IsPowerOfTwo 1 = false`). -/
def IsPowerOfTwo (value : Nat) : Bool :=
  if 2 ≤ value then
    2 ^ Nat.log2 (toDouble value) == toDouble value
  else false

/-- `CEntityComponentMetadata` (declared in `IWorldObjectCDO.h`, used as
`{Size, Alignment}` aggregate in `CWorldObject.h` and the spec's
`ComponentMetadata{Size, Alignment}`). -/
structure CEntityComponentMetadata where
  Size : Nat
  Alignment : Nat
deriving DecidableEq, Repr

/-- State of `CWorldObjectCDO`: the registered component metadata list, the
CDO-mode flag, the class size and the class alignment. -/
structure CWorldObjectCDO where
  _components : List CEntityComponentMetadata
  _isConstructingCdo : Bool
  _classSize : Nat
  _classAlignmemt : Nat
deriving DecidableEq, Repr

/-- `CWorldObjectCDO::CWorldObjectCDO(isConstructingCDO, classSize,
classAlignment)`; `assert(_classSize > 0)`. -/
def CWorldObjectCDO.mkCdo (isConstructingCDO : Bool) (classSize classAlignment : Nat) :
    Outcome CWorldObjectCDO :=
  if classSize > 0 then
    .ok { _components := [], _isConstructingCdo := isConstructingCDO,
          _classSize := classSize, _classAlignmemt := classAlignment }
  else
    .assertionFailed

/-- `CWorldObjectCDO::StaticRegisterNewComponentUnknown(sizeOfComponent,
alignment)`: debug asserts `_isConstructingCdo`, `sizeOfComponent > 0`,
`alignment == 1 || IsPowerOfTwo(alignment)`, `sizeOfComponent >= alignment`;
then appends `{sizeOfComponent, alignment}` to `_components`. -/
def CWorldObjectCDO.StaticRegisterNewComponentUnknown (cdo : CWorldObjectCDO)
    (sizeOfComponent alignment : Nat) : Outcome CWorldObjectCDO :=
  if cdo._isConstructingCdo = true
      ∧ sizeOfComponent > 0
      ∧ ((alignment == 1) || IsPowerOfTwo alignment) = true
      ∧ sizeOfComponent ≥ alignment then
    .ok { cdo with
      _components := cdo._components ++ [⟨sizeOfComponent, alignment⟩] }
  else
    .assertionFailed

/-- `CWorldObjectCDO::GetCDOComponentsInfo()`. -/
def CWorldObjectCDO.GetCDOComponentsInfo (cdo : CWorldObjectCDO) :
    List CEntityComponentMetadata :=
  cdo._components

/-- `CWorldObjectCDO::GetClassSize()`. -/
def CWorldObjectCDO.GetClassSize (cdo : CWorldObjectCDO) : Nat := cdo._classSize

/-- `CWorldObjectCDO::GetClassAlignment()`. -/
def CWorldObjectCDO.GetClassAlignment (cdo : CWorldObjectCDO) : Nat :=
  cdo._classAlignmemt

/-- `CWorldObjectCDO::IsCDO()`. -/
def CWorldObjectCDO.IsCDO (cdo : CWorldObjectCDO) : Bool := cdo._isConstructingCdo

/-- `CWorldObjectCDO::ComputeComponentsMaxSizeForAllocation()`: returns `0`
when no component is registered, otherwise starts from
`alignof(std::max_align_t)` and adds every component's `Size`. -/
def CWorldObjectCDO.ComputeComponentsMaxSizeForAllocation (cdo : CWorldObjectCDO) : Nat :=
  if cdo._components.length = 0 then 0
  else cdo._components.foldl (fun bytes c => bytes + c.Size) alignof_max_align_t

/-- Folding `+ Size` over a list equals the initial value plus the sum of
sizes. -/
theorem foldl_add_size (l : List CEntityComponentMetadata) (a : Nat) :
    l.foldl (fun bytes c => bytes + c.Size) a = a + (l.map (·.Size)).sum := by
  induction l generalizing a with
  | nil => simp
  | cons c rest ih =>
      simp only [List.foldl_cons, List.map_cons, List.sum_cons]
      rw [ih]
      omega

/-- Values below `2^53` are exactly representable in `double`. -/
theorem toDouble_small (v : Nat) (h : v < 2 ^ 53) : toDouble v = v := by
  unfold toDouble
  rw [if_pos h]

theorem log2_two_pow (k : Nat) : Nat.log2 (2 ^ k) = k := by
  rw [Nat.log2_eq_log_two]
  exact Nat.log_pow (by omega) k

/-- Every power of two converts to `double` exactly. -/
theorem toDouble_pow2 (k : Nat) : toDouble (2 ^ k) = 2 ^ k := by
  by_cases h : 2 ^ k < 2 ^ 53
  · exact toDouble_small _ h
  · have hk : 53 ≤ k := by
      by_contra hk2
      exact h (Nat.pow_lt_pow_right (by omega) (by omega))
    have hsplit : (2:Nat) ^ k = 2 ^ (k - 52) * 2 ^ 52 := by
      rw [← pow_add]
      congr 1
      omega
    have hpos : 0 < (2:Nat) ^ (k - 52) := Nat.pow_pos (by omega)
    have hhalf : 0 < (2:Nat) ^ (k - 52 - 1) := Nat.pow_pos (by omega)
    have hr : (2:Nat) ^ k % 2 ^ (k - 52) = 0 := by
      rw [hsplit]
      exact Nat.mul_mod_right _ _
    have hq : (2:Nat) ^ k / 2 ^ (k - 52) = 2 ^ 52 := by
      rw [hsplit]
      exact Nat.mul_div_cancel_left _ hpos
    unfold toDouble
    rw [if_neg h]
    simp only [log2_two_pow, hr, hq]
    have hcond : ¬ ((2:Nat) ^ (k - 52 - 1) < 0
        ∨ ((0:Nat) = 2 ^ (k - 52 - 1) ∧ (2:Nat) ^ 52 % 2 = 1)) := by
      rintro (h1 | ⟨h2, -⟩)
      · omega
      · omega
    rw [if_neg hcond, hsplit]
    ring

/-- Every power of two passes the source's alignment test (`1` via the
explicit `alignment == 1` disjunct, larger powers via `IsPowerOfTwo`). -/
theorem pow2_alignment_test (a : Nat) (h : ∃ k : Nat, a = 2 ^ k) :
    ((a == 1) || IsPowerOfTwo a) = true := by
  obtain ⟨k, rfl⟩ := h
  cases k with
  | zero => simp
  | succ n =>
      apply Bool.or_eq_true_iff.mpr
      right
      unfold IsPowerOfTwo
      have hle : 2 ≤ 2 ^ (n + 1) := by
        calc 2 = 2 ^ 1 := rfl
        _ ≤ 2 ^ (n + 1) := Nat.pow_le_pow_right (by omega) (by omega)
      rw [if_pos hle, toDouble_pow2, log2_two_pow]
      simp

theorem log2_two_pow53_add_one : Nat.log2 (2 ^ 53 + 1) = 53 := by
  rw [Nat.log2_eq_log_two]
  exact Nat.log_eq_of_pow_le_of_lt_pow (by norm_num) (by norm_num)

/-- The conversion of `2^53 + 1` to `double` rounds to exactly `2^53`
(round-to-nearest-even on the one dropped bit). -/
theorem toDouble_pow53_add_one : toDouble (2 ^ 53 + 1) = 2 ^ 53 := by
  unfold toDouble
  rw [if_neg (by norm_num), log2_two_pow53_add_one]
  norm_num

/-- Consequently the source's `IsPowerOfTwo` accepts the non-power
`2^53 + 1`. -/
theorem isPowerOfTwo_pow53_add_one : IsPowerOfTwo (2 ^ 53 + 1) = true := by
  unfold IsPowerOfTwo
  rw [if_pos (by norm_num), toDouble_pow53_add_one, log2_two_pow]
  simp

/-- Below `2^53`, where the `double` conversion is exact and the computed
`log2` of a non-power is never integral on the ranges the theorems use, the
source's alignment test holds iff the value is a power of two. -/
theorem alignment_test_iff_pow2_small (a : Nat) (ha : a < 2 ^ 53) :
    ((a == 1) || IsPowerOfTwo a) = true ↔ ∃ k : Nat, a = 2 ^ k := by
  constructor
  · intro h
    rcases Bool.or_eq_true_iff.mp h with h1 | h2
    · exact ⟨0, by simpa using h1⟩
    · unfold IsPowerOfTwo at h2
      by_cases hle : 2 ≤ a
      · rw [if_pos hle, toDouble_small a ha] at h2
        exact ⟨Nat.log2 a, (beq_iff_eq.mp h2).symm⟩
      · rw [if_neg hle] at h2
        exact absurd h2 (by simp)
  · exact pow2_alignment_test a

/-! ### Claims about the CDO (C4, C8) -/

/-- The CDO of a class that registered no components, as built during
`RegisterEntityClass` (CDO mode, here with class size 64 and alignment 8). -/
def cdoNoComponents : CWorldObjectCDO :=
  { _components := [], _isConstructingCdo := true, _classSize := 64,
    _classAlignmemt := 8 }

/-- C4 counterexample: for a CDO with an empty component list the code
returns `0`, not `alignof(max_align_t) + Σ size_i = 16 + 0`. -/
theorem components_max_bytes_empty_counterexample :
    ¬ (cdoNoComponents.ComputeComponentsMaxSizeForAllocation
        = alignof_max_align_t + (cdoNoComponents._components.map (·.Size)).sum) := by
  decide

/-- C4 amended. `ComputeComponentsMaxSizeForAllocation` equals
`alignof(max_align_t) + Σ size_i` whenever at least one component is
registered, and `0` when the component list is empty. -/
theorem components_max_bytes_formula (cdo : CWorldObjectCDO) :
    (cdo._components ≠ [] →
      cdo.ComputeComponentsMaxSizeForAllocation
        = alignof_max_align_t + (cdo._components.map (·.Size)).sum) ∧
    (cdo._components = [] → cdo.ComputeComponentsMaxSizeForAllocation = 0) := by
  constructor
  · intro h
    unfold CWorldObjectCDO.ComputeComponentsMaxSizeForAllocation
    rw [if_neg (by simpa using h)]
    exact foldl_add_size _ _
  · intro h
    unfold CWorldObjectCDO.ComputeComponentsMaxSizeForAllocation
    rw [if_pos (by simp [h])]

/-- Witness for the amended C4 theorem: a CDO with components of sizes 8 and
24 reserves `16 + 32 = 48` bytes; one with no components reserves `0`. -/
theorem components_max_bytes_formula_witness :
    ({ _components := [⟨8, 8⟩, ⟨24, 8⟩], _isConstructingCdo := true,
       _classSize := 64, _classAlignmemt := 8 } :
        CWorldObjectCDO).ComputeComponentsMaxSizeForAllocation
      = alignof_max_align_t + ([⟨8, 8⟩, (⟨24, 8⟩ : CEntityComponentMetadata)].map (·.Size)).sum ∧
    cdoNoComponents.ComputeComponentsMaxSizeForAllocation = 0 :=
  ⟨(components_max_bytes_formula _).1 (by decide),
   (components_max_bytes_formula cdoNoComponents).2 rfl⟩

/-- C8 counterexample: the code's debug assertion ACCEPTS
`(size, alignment) = (2^53 + 1, 2^53 + 1)` although `2^53 + 1` is not a power
of two — the `uint64_t` argument of `log2` is converted to `double`, which
rounds `2^53 + 1` to exactly `2^53` (round-to-nearest-even), and `log2` of an
exact power of two is exactly integral, so `floor(r) == r` holds and the
registration goes through. This falsifies the claim's universal "accepts
exactly when the alignment is a power of two". -/
theorem register_component_accepts_non_power :
    (∃ cdo2, cdoNoComponents.StaticRegisterNewComponentUnknown
        (2 ^ 53 + 1) (2 ^ 53 + 1) = .ok cdo2) ∧
    ¬ (∃ k : Nat, (2 ^ 53 + 1 : Nat) = 2 ^ k) := by
  constructor
  · refine ⟨{ cdoNoComponents with
      _components := [⟨2 ^ 53 + 1, 2 ^ 53 + 1⟩] }, ?_⟩
    unfold CWorldObjectCDO.StaticRegisterNewComponentUnknown
    rw [if_pos ⟨rfl, by norm_num,
      by rw [isPowerOfTwo_pow53_add_one, Bool.or_true], Nat.le_refl _⟩]
    rfl
  · rintro ⟨k, hk⟩
    cases k with
    | zero => exact absurd hk (by decide)
    | succ n =>
        have heven : (2:Nat) ^ (n + 1) % 2 = 0 := by
          simp [Nat.pow_succ, Nat.mul_mod]
        have hodd : ((2:Nat) ^ 53 + 1) % 2 = 1 := by decide
        rw [hk] at hodd
        omega

/-- C8 amended. In CDO mode, for every alignment below `2^32` — a range that
contains every realizable `alignof` and on which the `double`-based
`IsPowerOfTwo` test provably matches an exact power-of-two test under any C
library — component registration succeeds exactly when `size > 0`, the
alignment is a power of two (`1 = 2^0` included), and `alignment ≤ size`;
otherwise it dies on a fatal assertion. (For astronomically large alignments
the floating-point test diverges: see the counterexample at `2^53 + 1`.) -/
theorem register_component_accepts_iff (cdo : CWorldObjectCDO)
    (size align : Nat) (h : cdo._isConstructingCdo = true)
    (hsmall : align < 2 ^ 32) :
    (∃ cdo2, cdo.StaticRegisterNewComponentUnknown size align = .ok cdo2)
      ↔ (0 < size ∧ (∃ k : Nat, align = 2 ^ k) ∧ align ≤ size) := by
  have h53 : align < 2 ^ 53 := lt_trans hsmall (by norm_num)
  unfold CWorldObjectCDO.StaticRegisterNewComponentUnknown
  constructor
  · intro ⟨cdo2, h2⟩
    by_cases hc : (cdo._isConstructingCdo = true ∧ size > 0
        ∧ ((align == 1) || IsPowerOfTwo align) = true ∧ size ≥ align)
    · exact ⟨hc.2.1, (alignment_test_iff_pow2_small align h53).mp hc.2.2.1, hc.2.2.2⟩
    · rw [if_neg hc] at h2
      exact absurd h2 (by simp)
  · intro ⟨hs, hp, hsa⟩
    exact ⟨_, if_pos ⟨h, hs, pow2_alignment_test align hp, hsa⟩⟩

/-- Witness for the amended C8: at a fresh CDO, `(size, align) = (16, 16)` is
accepted (the theorem's right-hand side holds with `16 = 2^4`). -/
theorem register_component_accepts_iff_witness :
    ∃ cdo2, cdoNoComponents.StaticRegisterNewComponentUnknown 16 16 = .ok cdo2 :=
  (register_component_accepts_iff cdoNoComponents 16 16 rfl (by norm_num)).mpr
    ⟨by decide, ⟨4, by decide⟩, by decide⟩

/-! ## `clow/gpalloc` — external general-purpose sub-allocator primitive -/

/-- Modelled from the spec: the external `clow` general-purpose sub-allocator
(`gpalloc.h` is not part of this repository). §6 gives its interface
(`Initialize(header, buffer, bufferBytes)`, `Malloc(header, size, alignment)
→ pointer | null`, `Free(header, pointer)`) and §3 describes bump-style
sub-allocation within `[buffer, buffer + buffer_size)`. A zero-initialized
header (`gpalloc_t _allocator{}`) has `buffer_size = 0`. -/
structure gpalloc_t where
  buffer : Nat
  buffer_size : Nat
  cur : Nat
  live : List (Nat × Nat)
deriving DecidableEq, Repr

/-- Modelled from the spec: the zero-initialized `gpalloc_t{}` header. -/
def gpalloc_zero : gpalloc_t :=
  { buffer := 0, buffer_size := 0, cur := 0, live := [] }

/-- Modelled from the spec: `gpalloc_initialize(header, buffer, bytes)`. -/
def gpalloc_init (buffer bytes : Nat) : gpalloc_t :=
  { buffer := buffer, buffer_size := bytes, cur := 0, live := [] }

/-- Round `addr` up to the next multiple of `alignment` (`alignment > 0`). -/
def alignUp (addr alignment : Nat) : Nat :=
  if alignment = 0 then addr
  else addr + (alignment - addr % alignment) % alignment

/-- Modelled from the spec: `gpalloc_malloc(header, size, alignment)` —
bump-allocates an aligned block inside the buffer window, or returns null. -/
def gpalloc_malloc (g : gpalloc_t) (size alignment : Nat) :
    Option Nat × gpalloc_t :=
  let addr := alignUp (g.buffer + g.cur) alignment
  if addr + size ≤ g.buffer + g.buffer_size then
    (some addr, { g with cur := addr + size - g.buffer, live := (addr, size) :: g.live })
  else
    (none, g)

/-- Modelled from the spec: `gpalloc_free(header, ptr)` — releases a live
sub-allocation back to the arena. -/
def gpalloc_free (g : gpalloc_t) (ptr : Nat) : gpalloc_t :=
  { g with live := g.live.filter (fun pr => pr.1 ≠ ptr) }

/-! ## `CWorldObject.h` — `CWorldObjectArchetypesComponentsContainer` -/

/-- State of `CWorldObjectArchetypesComponentsContainer`: the debug bound
markers and the `gpalloc_t` sub-allocator header. -/
structure CWorldObjectArchetypesComponentsContainer where
  _worldObjectComponentsPtrBegin : Nat
  _worldObjectComponentsPtrEnd : Nat
  _allocator : gpalloc_t
deriving DecidableEq, Repr

/-- The container's constructor: when a CDO is supplied and it has at least
one component, asserts the debug preconditions and initializes the `gpalloc`
arena over `[worldObject + ClassSize, worldObject + ClassSize +
ComputeComponentsMaxSizeForAllocation)`; otherwise leaves everything
zero-initialized (the arena is inert). `worldObject` is the entity's address
(`0` = `nullptr`). -/
def mkContainer (worldObject : Nat) (staticClassCdo : Option CWorldObjectCDO) :
    Outcome CWorldObjectArchetypesComponentsContainer :=
  match staticClassCdo with
  | some cdo =>
      if cdo.GetCDOComponentsInfo.length > 0 then
        if worldObject ≠ 0 ∧ cdo.GetClassSize ≠ 0
            ∧ (worldObject + cdo.GetClassSize) % alignof_max_align_t = 0 then
          .ok { _worldObjectComponentsPtrBegin := worldObject + cdo.GetClassSize,
                _worldObjectComponentsPtrEnd := worldObject + cdo.GetClassSize
                  + cdo.ComputeComponentsMaxSizeForAllocation,
                _allocator := gpalloc_init (worldObject + cdo.GetClassSize)
                  cdo.ComputeComponentsMaxSizeForAllocation }
        else
          .assertionFailed
      else
        .ok { _worldObjectComponentsPtrBegin := 0, _worldObjectComponentsPtrEnd := 0,
              _allocator := gpalloc_zero }
  | none =>
      .ok { _worldObjectComponentsPtrBegin := 0, _worldObjectComponentsPtrEnd := 0,
            _allocator := gpalloc_zero }

/-- `CWorldObjectArchetypesComponentsContainer::MallocComponent(size,
alignment)`: asserts the alignment/size preconditions, returns null when the
arena is uninitialized (`buffer_size == 0`), otherwise forwards to
`gpalloc_malloc` and asserts that a non-null result lies inside the
archetype's memory bounds. -/
def CWorldObjectArchetypesComponentsContainer.MallocComponent
    (c : CWorldObjectArchetypesComponentsContainer) (size alignment : Nat) :
    Outcome (Option Nat × CWorldObjectArchetypesComponentsContainer) :=
  if ((alignment == 1) || IsPowerOfTwo alignment) = true ∧ size ≥ alignment then
    if c._allocator.buffer_size = 0 then
      .ok (none, c)
    else
      match gpalloc_malloc c._allocator size alignment with
      | (none, a2) => .ok (none, { c with _allocator := a2 })
      | (some newPtr, a2) =>
          if newPtr ≥ c._worldObjectComponentsPtrBegin
              ∧ newPtr < c._worldObjectComponentsPtrEnd
              ∧ newPtr + size ≤ c._worldObjectComponentsPtrEnd then
            .ok (some newPtr, { c with _allocator := a2 })
          else
            .assertionFailed
  else
    .assertionFailed

/-- `CWorldObjectArchetypesComponentsContainer::FreeComponent(ptr)`: returns
immediately on a null pointer or an uninitialized arena, otherwise forwards
to `gpalloc_free`. -/
def CWorldObjectArchetypesComponentsContainer.FreeComponent
    (c : CWorldObjectArchetypesComponentsContainer) (ptr : Nat) :
    CWorldObjectArchetypesComponentsContainer :=
  if ptr = 0 ∨ c._allocator.buffer_size = 0 then c
  else { c with _allocator := gpalloc_free c._allocator ptr }

/-! ## `CWorldObject.h` — `CWorldObject` -/

/-- `DWorldObjectInitializer`: the CDO pointer (`none` = `nullptr`), class
size, class alignment and the pending-destroy notifier address. -/
structure DWorldObjectInitializer where
  StaticClassCDO : Option CWorldObjectCDO
  ClassSize : Nat
  ClassAlignment : Nat
  PendingDestroyNotifier : Nat
deriving DecidableEq, Repr

/-- State of `CWorldObject`: its `CWorldObjectCDO` base subobject, its
`CTickable` flag, its `CDestroyable` state and its component container base
subobject. -/
structure CWorldObject where
  cdoBase : CWorldObjectCDO
  _canEverTick : Bool
  PendingDestroy : Bool
  container : CWorldObjectArchetypesComponentsContainer
deriving DecidableEq, Repr

/-- `CWorldObject::CWorldObject(initializer, canEverTick)` placement-built at
address `addr`: the `CWorldObjectCDO` base is constructed with
`isConstructingCDO = (initializer.StaticClassCDO == nullptr)` and the
initializer's size/alignment; the container base is constructed over `this`
and `initializer.StaticClassCDO`. -/
def CWorldObject.construct (addr : Nat) (initializer : DWorldObjectInitializer)
    (canEverTick : Bool) : Outcome CWorldObject :=
  match CWorldObjectCDO.mkCdo (initializer.StaticClassCDO = none)
      initializer.ClassSize initializer.ClassAlignment with
  | .ok cdoBase =>
      match mkContainer addr initializer.StaticClassCDO with
      | .ok container =>
          .ok { cdoBase := cdoBase, _canEverTick := canEverTick,
                PendingDestroy := false, container := container }
      | .thrown e => .thrown e
      | .assertionFailed => .assertionFailed
  | .thrown e => .thrown e
  | .assertionFailed => .assertionFailed

/-- `CWorldObject::IsCDO()`, inherited from `CWorldObjectCDO`. -/
def CWorldObject.IsCDO (w : CWorldObject) : Bool := w.cdoBase.IsCDO

/-- Where a component created by `NewComponent<T>` lives: on the heap
(`std::make_shared`) or inside the inline arena (placement-new at `addr`). -/
inductive ComponentAlloc : Type where
  | heap : ComponentAlloc
  | arena (addr : Nat) : ComponentAlloc
deriving DecidableEq, Repr

/-- `CWorldObject::NewComponent<T>()` with `sizeof(T) = size` and
`alignof(T) = align`. In CDO mode it registers the metadata and heap-allocates;
in instance mode it tries `MallocComponent` and falls back to the heap on a
null result. -/
def CWorldObject.NewComponent (w : CWorldObject) (size align : Nat) :
    Outcome (ComponentAlloc × CWorldObject) :=
  if w.IsCDO then
    match w.cdoBase.StaticRegisterNewComponentUnknown size align with
    | .ok cdo2 => .ok (.heap, { w with cdoBase := cdo2 })
    | .thrown e => .thrown e
    | .assertionFailed => .assertionFailed
  else
    match w.container.MallocComponent size align with
    | .ok (some p, c2) => .ok (.arena p, { w with container := c2 })
    | .ok (none, c2) => .ok (.heap, { w with container := c2 })
    | .thrown e => .thrown e
    | .assertionFailed => .assertionFailed

/-! ### Claims about the inline component arena and `CWorldObject` (C9, C10) -/

/-- C9. When the container is constructed with no CDO or with a CDO whose
component list is empty, construction succeeds with an inert arena
(`buffer_size = 0`): every `MallocComponent` call satisfying its asserted
preconditions returns null without changing the state, and every
`FreeComponent` call (null or foreign pointer alike) is a no-op. -/
theorem inert_arena_when_no_components (worldObject : Nat)
    (cdoOpt : Option CWorldObjectCDO)
    (h : cdoOpt = none ∨ ∃ cdo, cdoOpt = some cdo ∧ cdo._components = []) :
    ∃ c : CWorldObjectArchetypesComponentsContainer,
      mkContainer worldObject cdoOpt = .ok c ∧
      c._allocator.buffer_size = 0 ∧
      (∀ size align : Nat,
        ((align == 1) || IsPowerOfTwo align) = true → align ≤ size →
        c.MallocComponent size align = .ok (none, c)) ∧
      (∀ ptr : Nat, c.FreeComponent ptr = c) := by
  have hmk : mkContainer worldObject cdoOpt
      = .ok { _worldObjectComponentsPtrBegin := 0, _worldObjectComponentsPtrEnd := 0,
              _allocator := gpalloc_zero } := by
    rcases h with rfl | ⟨cdo, rfl, hcomps⟩
    · rfl
    · simp [mkContainer, CWorldObjectCDO.GetCDOComponentsInfo, hcomps]
  refine ⟨_, hmk, rfl, ?_, ?_⟩
  · intro size align ha hsa
    unfold CWorldObjectArchetypesComponentsContainer.MallocComponent
    rw [if_pos ⟨ha, hsa⟩]
    rfl
  · intro ptr
    unfold CWorldObjectArchetypesComponentsContainer.FreeComponent
    simp [gpalloc_zero]

/-- Witness for C9: a container built with no CDO at address 4096 is inert
for a `(size, align) = (16, 8)` request and for `FreeComponent 12345`. -/
theorem inert_arena_when_no_components_witness :
    ∃ c : CWorldObjectArchetypesComponentsContainer,
      mkContainer 4096 none = .ok c ∧
      c._allocator.buffer_size = 0 ∧
      (∀ size align : Nat,
        ((align == 1) || IsPowerOfTwo align) = true → align ≤ size →
        c.MallocComponent size align = .ok (none, c)) ∧
      (∀ ptr : Nat, c.FreeComponent ptr = c) :=
  inert_arena_when_no_components 4096 none (Or.inl rfl)

/-- C10. A `CWorldObject` is in CDO mode iff the initializer's
`StaticClassCDO` was null, and in that mode every `NewComponent<T>()` call
with valid metadata appends `{sizeof(T), alignof(T)}` to the object's own
component list, heap-allocates the component, and leaves the inline arena
untouched. -/
theorem cdo_mode_iff_null_static_cdo :
    (∀ (addr : Nat) (initializer : DWorldObjectInitializer) (tick : Bool)
        (w : CWorldObject),
        CWorldObject.construct addr initializer tick = .ok w →
        (w.IsCDO = true ↔ initializer.StaticClassCDO = none)) ∧
    (∀ (w : CWorldObject) (size align : Nat),
        w.IsCDO = true →
        0 < size → (∃ k : Nat, align = 2 ^ k) → align ≤ size →
        ∃ w2 : CWorldObject,
          w.NewComponent size align = .ok (.heap, w2) ∧
          w2.cdoBase._components = w.cdoBase._components ++ [⟨size, align⟩] ∧
          w2.container = w.container) := by
  constructor
  · intro addr initializer tick w hw
    unfold CWorldObject.construct at hw
    unfold CWorldObjectCDO.mkCdo at hw
    by_cases hcs : initializer.ClassSize > 0
    · rw [if_pos hcs] at hw
      cases hc : mkContainer addr initializer.StaticClassCDO with
      | ok container =>
          rw [hc] at hw
          cases hw
          unfold CWorldObject.IsCDO CWorldObjectCDO.IsCDO
          simp
      | thrown e => rw [hc] at hw; exact absurd hw (by simp)
      | assertionFailed => rw [hc] at hw; exact absurd hw (by simp)
    · rw [if_neg hcs] at hw
      exact absurd hw (by simp)
  · intro w size align hcdo hs hp hsa
    have hreg : w.cdoBase.StaticRegisterNewComponentUnknown size align
        = .ok { w.cdoBase with
            _components := w.cdoBase._components ++ [⟨size, align⟩] } := by
      unfold CWorldObjectCDO.StaticRegisterNewComponentUnknown
      exact if_pos ⟨hcdo, hs, pow2_alignment_test align hp, hsa⟩
    refine ⟨{ w with cdoBase := { w.cdoBase with
        _components := w.cdoBase._components ++ [⟨size, align⟩] } }, ?_, rfl, rfl⟩
    unfold CWorldObject.NewComponent
    rw [if_pos (by simpa [CWorldObject.IsCDO, CWorldObjectCDO.IsCDO] using hcdo), hreg]

/-- Witness for C10: a CDO-mode object (null `StaticClassCDO`) reports
`IsCDO`, and a `NewComponent` call with `(size, align) = (32, 8)` on it
heap-allocates and appends the metadata. -/
theorem cdo_mode_iff_null_static_cdo_witness :
    (∀ w : CWorldObject,
      CWorldObject.construct 4096 ⟨none, 64, 8, 1⟩ false = .ok w →
      (w.IsCDO = true ↔ (none : Option CWorldObjectCDO) = none)) ∧
    (∃ w2 : CWorldObject,
      ({ cdoBase := cdoNoComponents, _canEverTick := false,
         PendingDestroy := false,
         container := { _worldObjectComponentsPtrBegin := 0,
                        _worldObjectComponentsPtrEnd := 0,
                        _allocator := gpalloc_zero } } :
         CWorldObject).NewComponent 32 8 = .ok (.heap, w2) ∧
      w2.cdoBase._components = cdoNoComponents._components ++ [⟨32, 8⟩] ∧
      w2.container = { _worldObjectComponentsPtrBegin := 0,
                       _worldObjectComponentsPtrEnd := 0,
                       _allocator := gpalloc_zero }) :=
  ⟨fun w hw => cdo_mode_iff_null_static_cdo.1 4096 ⟨none, 64, 8, 1⟩ false w hw,
   cdo_mode_iff_null_static_cdo.2 _ 32 8 rfl (by decide) ⟨3, by decide⟩ (by decide)⟩

/-! ## `clow/freelist` — external free-list primitive -/

/-- Modelled from the spec: `freelist_alloc_overhead()` — the per-allocation
bookkeeping bytes of the external `clow` free-list (`freelist.h` is not part
of this repository); a fixed positive constant. -/
def freelist_alloc_overhead : Nat := 16

/-- Modelled from the spec: the external `clow` free-list header (§6:
`Initialize`, `Malloc`, `Free`, `GetBuffer`, `GetAllocationSize`). It manages
the page window `[buffer, buffer + buffer_size)`; each allocation consumes
its size plus `freelist_alloc_overhead` bytes. `carved` counts the bytes
carved from the front of the buffer so far, `freeBlocks` holds addresses of
freed blocks available for reuse, `allocated` maps live block addresses to
their sizes. -/
structure freelist where
  buffer : Nat
  buffer_size : Nat
  carved : Nat
  freeBlocks : List Nat
  allocated : List (Nat × Nat)
deriving DecidableEq, Repr

/-- Modelled from the spec: `freelist_initialize(header, buffer, bytes)`. -/
def freelist_init (buffer bytes : Nat) : freelist :=
  { buffer := buffer, buffer_size := bytes, carved := 0,
    freeBlocks := [], allocated := [] }

/-- Modelled from the spec: `freelist_malloc(header, bytes)` — reuse a freed
block when one exists, otherwise carve `overhead + bytes` fresh bytes from
the buffer; returns null (`none`) when the page is exhausted. -/
def freelist_malloc (fl : freelist) (bytes : Nat) : Option Nat × freelist :=
  match fl.freeBlocks with
  | a :: rest =>
      (some a, { fl with freeBlocks := rest, allocated := (a, bytes) :: fl.allocated })
  | [] =>
      if fl.carved + freelist_alloc_overhead + bytes ≤ fl.buffer_size then
        let addr := fl.buffer + fl.carved + freelist_alloc_overhead
        (some addr, { fl with carved := fl.carved + freelist_alloc_overhead + bytes,
                              allocated := (addr, bytes) :: fl.allocated })
      else
        (none, fl)

/-- Modelled from the spec: `freelist_free(header, ptr)` — returns the block
to the free list. -/
def freelist_free (fl : freelist) (ptr : Nat) : freelist :=
  { fl with allocated := fl.allocated.filter (fun pr => pr.1 ≠ ptr),
            freeBlocks := ptr :: fl.freeBlocks }

/-- Modelled from the spec: `freelist_get_buffer(header)`. -/
def freelist_get_buffer (fl : freelist) : Nat := fl.buffer

/-- Modelled from the spec: `freelist_get_allocation_size(header, ptr)` (`0`
for a pointer that is not a live allocation, in particular for null). -/
def freelist_get_allocation_size (fl : freelist) (ptr : Nat) : Nat :=
  match fl.allocated.lookup ptr with
  | some s => s
  | none => 0

/-! ## `CPagedAllocator.h` — `CPagedAllocator<IAlignedAllocator_T>` -/

/-- State of `CPagedAllocator`: the parameters, the derived page size
`_slabBytes = maxNumOfElementsPerSlab * (elementSize +
freelist_alloc_overhead)`, the page sequence `_slabs` and the parallel
fullness bitmap `_fullBuckets`. -/
structure CPagedAllocator where
  _maxNumElementsPerSlab : Nat
  _elementSize : Nat
  _slabBytes : Nat
  _slabs : List freelist
  _fullBuckets : List Bool
deriving DecidableEq, Repr

/-- `CPagedAllocator::CPagedAllocator(maxNumOfElementsPerSlab, elementSize)`:
no page is acquired on construction. -/
def CPagedAllocator.mkPaged (maxNumOfElementsPerSlab elementSize : Nat) :
    CPagedAllocator :=
  { _maxNumElementsPerSlab := maxNumOfElementsPerSlab,
    _elementSize := elementSize,
    _slabBytes := maxNumOfElementsPerSlab * (elementSize + freelist_alloc_overhead),
    _slabs := [], _fullBuckets := [] }

/-- `CPagedAllocator::GetFixedBlockSize()`. -/
def CPagedAllocator.GetFixedBlockSize (s : CPagedAllocator) : Nat := s._elementSize

/-- `CPagedAllocator::_getFreeAllocatorIndex()`: scan `_fullBuckets` for the
first non-full page; if none, push `false` onto `_fullBuckets`, request a new
page from the aligned raw allocator (`raw` is its response; `none` = null),
and on null throw `std::bad_alloc` — note the already-grown `_fullBuckets`
survives the throw. On success initialize a free list over the new buffer and
append it to `_slabs`. -/
def CPagedAllocator._getFreeAllocatorIndex (raw : Option Nat) (s : CPagedAllocator) :
    Option Nat × CPagedAllocator :=
  match s._fullBuckets.findIdx? (fun b => b == false) with
  | some i => (some i, s)
  | none =>
      let s1 := { s with _fullBuckets := s._fullBuckets ++ [false] }
      match raw with
      | none => (none, s1)
      | some buffer =>
          (some s1._slabs.length,
            { s1 with _slabs := s1._slabs ++ [freelist_init buffer s1._slabBytes] })

/-- Write back page `i`. -/
def CPagedAllocator.setSlab (s : CPagedAllocator) (i : Nat) (fl : freelist) :
    CPagedAllocator :=
  { s with _slabs := s._slabs.set i fl }

/-- `CPagedAllocator::Allocate()`: pick the first non-full page (growing on
demand; `raw` is the aligned raw allocator's response to a page request),
take one `elementSize` block from its free list, assert its recorded size,
then speculatively take a second block: if that returns null mark the page
full, otherwise release the second block immediately. -/
def CPagedAllocator.Allocate (raw : Option Nat) (s : CPagedAllocator) :
    Outcome Nat × CPagedAllocator :=
  match s._getFreeAllocatorIndex raw with
  | (none, s1) => (.thrown .badAlloc, s1)
  | (some allocatorIndex, s1) =>
      let allocator := s1._slabs.getD allocatorIndex (freelist_init 0 0)
      match freelist_malloc allocator s1._elementSize with
      | (allocation, a1) =>
          if freelist_get_allocation_size a1 (allocation.getD 0) = s1._elementSize then
            match freelist_malloc a1 s1._elementSize with
            | (none, a2) =>
                (.ok (allocation.getD 0),
                  { s1.setSlab allocatorIndex a2 with
                      _fullBuckets := s1._fullBuckets.set allocatorIndex true })
            | (some nextAlloc, a2) =>
                (.ok (allocation.getD 0),
                  s1.setSlab allocatorIndex (freelist_free a2 nextAlloc))
          else
            (.assertionFailed, s1.setSlab allocatorIndex a1)

/-- `std::lower_bound(first, last, value, comp)` over a list: index of the
first element on which `comp elem value` is false (`length` when every
element satisfies `comp`; the C++ behavior is defined when the range is
partitioned with respect to `comp · value`, which holds for the states
exercised here). -/
def lowerBoundIdx {α : Type} (comp : α → Bool) : List α → Nat
  | [] => 0
  | a :: rest => if comp a then lowerBoundIdx comp rest + 1 else 0

/-- `CPagedAllocator::Free(ptr)`: nothing to do with zero pages; with several
pages run `std::lower_bound` with comparator
`freelist_get_buffer(page) + page.buffer_size < ptr` and, unless the result
is the end iterator, release `ptr` into that page's free list and clear its
fullness bit; with exactly one page release `ptr` into it and clear
`_fullBuckets[0]` unconditionally. -/
def CPagedAllocator.Free (ptr : Nat) (s : CPagedAllocator) : CPagedAllocator :=
  if s._slabs.length = 0 then s
  else if 1 < s._slabs.length then
    let i := lowerBoundIdx
      (fun fl => decide (freelist_get_buffer fl + fl.buffer_size < ptr)) s._slabs
    if i < s._slabs.length then
      let fl := freelist_free (s._slabs.getD i (freelist_init 0 0)) ptr
      { s with _slabs := s._slabs.set i fl,
               _fullBuckets := s._fullBuckets.set i false }
    else s
  else
    let fl := freelist_free (s._slabs.getD 0 (freelist_init 0 0)) ptr
    { s with _slabs := s._slabs.set 0 fl,
             _fullBuckets := s._fullBuckets.set 0 false }

/-! ### Claims about the slab allocator (C1, C2) -/

/-- A single-page slab allocator (`maxElementsPerPage = 10`,
`elementSize = 32`) whose page spans `[4096, 4096 + 480)` and is currently
marked full, holding one live block at 4112. -/
def slabOnePageFull : CPagedAllocator :=
  { _maxNumElementsPerSlab := 10, _elementSize := 32, _slabBytes := 480,
    _slabs := [{ buffer := 4096, buffer_size := 480, carved := 480,
                 freeBlocks := [], allocated := [(4112, 32)] }],
    _fullBuckets := [true] }

/-- C1 evaluated at the failing input: `Free(64)` on a pointer owned by no
page (the only page spans `[4096, 4576)`) is NOT a no-op — the code's
single-page branch unconditionally releases the foreign pointer into the
page's free list and clears `_fullBuckets[0]`. -/
theorem free_foreign_pointer_mutates_state :
    (CPagedAllocator.Free 64 slabOnePageFull)._fullBuckets = [false] ∧
    slabOnePageFull._fullBuckets = [true] ∧
    (CPagedAllocator.Free 64 slabOnePageFull)._slabs ≠ slabOnePageFull._slabs ∧
    (∀ fl ∈ slabOnePageFull._slabs,
      ¬ (fl.buffer ≤ 64 ∧ 64 < fl.buffer + fl.buffer_size)) := by
  refine ⟨by decide, by decide, by decide, by decide⟩

/-- C2 evaluated at the failing input: on a fresh allocator, an `Allocate()`
whose raw page request returns null throws `std::bad_alloc` and leaves
`|_fullBuckets| = 1 ≠ 0 = |_slabs|` — `_fullBuckets` is grown before the raw
allocation is checked and is not rolled back on the throw. -/
theorem failed_allocate_breaks_parallel_lengths :
    (CPagedAllocator.Allocate none (CPagedAllocator.mkPaged 10 32)).1
        = .thrown .badAlloc ∧
    (CPagedAllocator.Allocate none (CPagedAllocator.mkPaged 10 32)).2._fullBuckets.length
        = 1 ∧
    (CPagedAllocator.Allocate none (CPagedAllocator.mkPaged 10 32)).2._slabs.length
        = 0 := by
  refine ⟨by decide, by decide, by decide⟩

/-! ## `CMatrixAllocator.h` — `CMatrixAllocator<PagedAllocator_T>` -/

/-- `emplace(it, x)` at position `i` of a sequence. -/
def insertAt {α : Type} (i : Nat) (x : α) (l : List α) : List α :=
  l.take i ++ x :: l.drop i

/-- State of `CMatrixAllocator`: the per-page element budget and the column
sequence `_perSizeAllocator`, ordered by ascending block size. -/
structure CMatrixAllocator where
  _maxElementsPerPage : Nat
  _perSizeAllocator : List CPagedAllocator
deriving DecidableEq, Repr

/-- `CMatrixAllocator::CMatrixAllocator(maxElementsPerPage)`
(`assert(maxElementsPerPage > 0)`). -/
def CMatrixAllocator.mkMatrix (maxElementsPerPage : Nat) : Outcome CMatrixAllocator :=
  if maxElementsPerPage > 0 then
    .ok { _maxElementsPerPage := maxElementsPerPage, _perSizeAllocator := [] }
  else
    .assertionFailed

/-- `CMatrixAllocator::_getAllocatorBySize(bytes)`: asserts `bytes > 0`,
binary-searches the ordered column sequence with `std::lower_bound`
(comparator `allocator.GetFixedBlockSize() < bytes`); on an exact hit
returns that column's index, on `it == end()` appends a freshly-constructed
`PagedAllocator_T(maxElementsPerPage, bytes)`, otherwise inserts one at the
lower-bound position. -/
def CMatrixAllocator._getAllocatorBySize (bytes : Nat) (m : CMatrixAllocator) :
    Outcome (Nat × CMatrixAllocator) :=
  if bytes > 0 then
    let it := lowerBoundIdx
      (fun a => decide (a.GetFixedBlockSize < bytes)) m._perSizeAllocator
    let newAllocator := CPagedAllocator.mkPaged m._maxElementsPerPage bytes
    if it < m._perSizeAllocator.length then
      if (m._perSizeAllocator.getD it (CPagedAllocator.mkPaged 0 0)).GetFixedBlockSize
          = bytes then
        .ok (it, m)
      else
        .ok (it,
          { m with _perSizeAllocator := insertAt it newAllocator m._perSizeAllocator })
    else
      .ok (m._perSizeAllocator.length,
        { m with _perSizeAllocator := m._perSizeAllocator ++ [newAllocator] })
  else
    .assertionFailed

/-- `CMatrixAllocator::Allocate(bytes)`: resolve (or create) the bucket for
`bytes`, then forward to that bucket's `Allocate()` (`raw` is the aligned raw
allocator's response should the bucket need a fresh page). -/
def CMatrixAllocator.Allocate (raw : Option Nat) (bytes : Nat)
    (m : CMatrixAllocator) : Outcome Nat × CMatrixAllocator :=
  match m._getAllocatorBySize bytes with
  | .ok (i, m1) =>
      let bucket := m1._perSizeAllocator.getD i (CPagedAllocator.mkPaged 0 0)
      let rb := bucket.Allocate raw
      (rb.1, { m1 with _perSizeAllocator := m1._perSizeAllocator.set i rb.2 })
  | .thrown e => (.thrown e, m)
  | .assertionFailed => (.assertionFailed, m)

/-- `CMatrixAllocator::Free(ptr)`: brute-force — forward `ptr` to every
column's `Free`. -/
def CMatrixAllocator.FreePtr (ptr : Nat) (m : CMatrixAllocator) : CMatrixAllocator :=
  { m with _perSizeAllocator :=
      m._perSizeAllocator.map (fun a => CPagedAllocator.Free ptr a) }

/-- The column block sizes, in column order. -/
def bucketSizes (m : CMatrixAllocator) : List Nat :=
  m._perSizeAllocator.map (·.GetFixedBlockSize)

/-! ### `lowerBoundIdx` / `insertAt` lemmas -/

theorem lowerBoundIdx_le_length {α : Type} (p : α → Bool) (l : List α) :
    lowerBoundIdx p l ≤ l.length := by
  induction l with
  | nil => simp [lowerBoundIdx]
  | cons a rest ih =>
      simp only [lowerBoundIdx, List.length_cons]
      by_cases h : p a
      · rw [if_pos h]
        exact Nat.succ_le_succ ih
      · rw [if_neg h]
        exact Nat.zero_le _

theorem lowerBoundIdx_map {α β : Type} (f : α → β) (p : β → Bool) (l : List α) :
    lowerBoundIdx (fun a => p (f a)) l = lowerBoundIdx p (l.map f) := by
  induction l with
  | nil => rfl
  | cons a rest ih =>
      simp only [List.map_cons, lowerBoundIdx]
      by_cases h : p (f a)
      · rw [if_pos h, if_pos h, ih]
      · rw [if_neg h, if_neg h]

theorem getD_map {α β : Type} (f : α → β) (l : List α) (i : Nat) (d : α) :
    (l.map f).getD i (f d) = f (l.getD i d) := by
  induction l generalizing i with
  | nil => simp
  | cons a rest ih =>
      cases i with
      | zero => simp
      | succ n =>
          simp only [List.map_cons, List.getD_cons_succ]
          exact ih n

theorem insertAt_map {α β : Type} (f : α → β) (i : Nat) (x : α) (l : List α) :
    (insertAt i x l).map f = insertAt i (f x) (l.map f) := by
  unfold insertAt
  simp [List.map_take, List.map_drop]

theorem insertAt_length {α : Type} (i : Nat) (x : α) (l : List α) (h : i ≤ l.length) :
    (insertAt i x l).length = l.length + 1 := by
  unfold insertAt
  simp [List.length_take, List.length_drop]
  omega

theorem insertAt_mem {α : Type} (i : Nat) (x : α) (l : List α)
    (y : α) : y ∈ insertAt i x l ↔ y = x ∨ y ∈ l := by
  unfold insertAt
  constructor
  · intro hy
    rcases List.mem_append.mp hy with h1 | h2
    · exact Or.inr (List.mem_of_mem_take h1)
    · rcases List.mem_cons.mp h2 with h3 | h4
      · exact Or.inl h3
      · exact Or.inr (List.mem_of_mem_drop h4)
  · intro hy
    rcases hy with rfl | hmem
    · exact List.mem_append.mpr (Or.inr (List.mem_cons_self _ _))
    · have := List.take_append_drop i l
      rw [← this] at hmem
      rcases List.mem_append.mp hmem with h1 | h2
      · exact List.mem_append.mpr (Or.inl h1)
      · exact List.mem_append.mpr (Or.inr (List.mem_cons_of_mem _ h2))

theorem insertAt_getD {α : Type} (i : Nat) (x : α) (l : List α) (d : α)
    (h : i ≤ l.length) : (insertAt i x l).getD i d = x := by
  induction l generalizing i with
  | nil =>
      have : i = 0 := Nat.le_zero.mp h
      subst this
      rfl
  | cons a rest ih =>
      cases i with
      | zero => rfl
      | succ n =>
          have hstep : insertAt (n + 1) x (a :: rest) = a :: insertAt n x rest := by
            simp [insertAt]
          rw [hstep, List.getD_cons_succ]
          exact ih n (Nat.le_of_succ_le_succ h)

theorem insertAt_at_length {α : Type} (x : α) (l : List α) :
    insertAt l.length x l = l ++ [x] := by
  simp [insertAt]

theorem map_set_comm {α β : Type} (f : α → β) (i : Nat) (x : α) (l : List α) :
    (l.set i x).map f = (l.map f).set i (f x) := by
  induction l generalizing i with
  | nil => rfl
  | cons a rest ih =>
      cases i with
      | zero => rfl
      | succ n =>
          simp only [List.set, List.map_cons]
          rw [ih n]

theorem set_getD_self {α : Type} (l : List α) (i : Nat) (x d : α)
    (hlen : i < l.length) (hget : l.getD i d = x) : l.set i x = l := by
  induction l generalizing i with
  | nil => simp at hlen
  | cons a rest ih =>
      cases i with
      | zero =>
          rw [List.getD_cons_zero] at hget
          rw [List.set]
          rw [hget]
      | succ n =>
          rw [List.getD_cons_succ] at hget
          rw [List.set]
          rw [ih n (Nat.lt_of_succ_lt_succ hlen) hget]

/-- Inserting `b` at its lower-bound position in a strictly ascending list of
naturals which does not contain `b` keeps the list strictly ascending. -/
theorem insertAt_lowerBound_pairwise (b : Nat) :
    ∀ ls : List Nat, ls.Pairwise (· < ·) → b ∉ ls →
    (insertAt (lowerBoundIdx (fun a => decide (a < b)) ls) b ls).Pairwise (· < ·) := by
  intro ls
  induction ls with
  | nil =>
      intro _ _
      simp [insertAt, lowerBoundIdx]
  | cons a rest ih =>
      intro hp hb
      have hpa := List.pairwise_cons.mp hp
      unfold lowerBoundIdx
      by_cases ha : a < b
      · rw [if_pos (by simpa using ha)]
        have : insertAt (lowerBoundIdx (fun x => decide (x < b)) rest + 1) b (a :: rest)
            = a :: insertAt (lowerBoundIdx (fun x => decide (x < b)) rest) b rest := by
          unfold insertAt
          simp
        rw [this]
        refine List.pairwise_cons.mpr ⟨?_, ih hpa.2 (fun hmem => hb (List.mem_cons_of_mem _ hmem))⟩
        intro y hy
        rcases (insertAt_mem _ b rest y).mp hy with rfl | hmem
        · exact ha
        · exact hpa.1 y hmem
      · rw [if_neg (by simpa using ha)]
        have : insertAt 0 b (a :: rest) = b :: a :: rest := by
          simp [insertAt]
        rw [this]
        refine List.pairwise_cons.mpr ⟨?_, hp⟩
        intro y hy
        have hba : b < a := by
          rcases Nat.lt_or_ge b a with h | h
          · exact h
          · exfalso
            have : a = b := Nat.le_antisymm h (Nat.not_lt.mp ha)
            exact hb (this ▸ List.mem_cons_self a rest)
        rcases List.mem_cons.mp hy with rfl | hmem
        · exact hba
        · exact hba.trans (hpa.1 y hmem)

/-- In a strictly ascending list, `lower_bound` lands exactly on `b` iff `b`
is a member. -/
theorem lowerBound_hit_iff_mem (b : Nat) :
    ∀ ls : List Nat, ls.Pairwise (· < ·) →
    ((lowerBoundIdx (fun a => decide (a < b)) ls < ls.length ∧
      ls.getD (lowerBoundIdx (fun a => decide (a < b)) ls) 0 = b) ↔ b ∈ ls) := by
  intro ls
  induction ls with
  | nil => simp [lowerBoundIdx]
  | cons a rest ih =>
      intro hp
      have hpa := List.pairwise_cons.mp hp
      unfold lowerBoundIdx
      by_cases ha : a < b
      · rw [if_pos (by simpa using ha)]
        simp only [List.length_cons, Nat.add_lt_add_iff_right, List.getD_cons_succ,
          List.mem_cons]
        rw [ih hpa.2]
        constructor
        · exact Or.inr
        · rintro (rfl | hmem)
          · exact absurd ha (Nat.lt_irrefl b)
          · exact hmem
      · rw [if_neg (by simpa using ha)]
        simp only [List.length_cons, List.getD_cons_zero, List.mem_cons]
        constructor
        · rintro ⟨-, rfl⟩
          exact Or.inl rfl
        · rintro (rfl | hmem)
          · exact ⟨Nat.succ_pos _, rfl⟩
          · exact absurd (hpa.1 b hmem) ha

/-- Behaviour of `_getAllocatorBySize` on a strictly ascending column
sequence: it succeeds with an index holding a bucket of exactly the requested
size, keeps the sequence strictly ascending, reuses the sequence untouched on
a hit, and inserts exactly one new bucket at the lower-bound position on a
miss. -/
theorem getAllocatorBySize_spec (m : CMatrixAllocator) (bytes : Nat)
    (hb : 0 < bytes) (hs : (bucketSizes m).Pairwise (· < ·)) :
    ∃ i m2, m._getAllocatorBySize bytes = .ok (i, m2) ∧
      m2._maxElementsPerPage = m._maxElementsPerPage ∧
      i ≤ m._perSizeAllocator.length ∧
      (bucketSizes m2).Pairwise (· < ·) ∧
      i < m2._perSizeAllocator.length ∧
      (bucketSizes m2).getD i 0 = bytes ∧
      (bytes ∈ bucketSizes m → m2 = m) ∧
      (bytes ∉ bucketSizes m → bucketSizes m2 = insertAt i bytes (bucketSizes m)) := by
  have hmap : lowerBoundIdx (fun a => decide (a.GetFixedBlockSize < bytes))
        m._perSizeAllocator
      = lowerBoundIdx (fun x => decide (x < bytes)) (bucketSizes m) :=
    lowerBoundIdx_map (fun a => a.GetFixedBlockSize) (fun x => decide (x < bytes))
      m._perSizeAllocator
  set i := lowerBoundIdx (fun a => decide (a.GetFixedBlockSize < bytes))
    m._perSizeAllocator with hidef
  have hgetD : ∀ j : Nat,
      (m._perSizeAllocator.getD j (CPagedAllocator.mkPaged 0 0)).GetFixedBlockSize
        = (bucketSizes m).getD j 0 := by
    intro j
    have := getD_map (fun a => a.GetFixedBlockSize) m._perSizeAllocator j
      (CPagedAllocator.mkPaged 0 0)
    exact this.symm
  have hlenmap : (bucketSizes m).length = m._perSizeAllocator.length := by
    simp [bucketSizes]
  have hile : i ≤ m._perSizeAllocator.length :=
    lowerBoundIdx_le_length _ m._perSizeAllocator
  have hhit := lowerBound_hit_iff_mem bytes (bucketSizes m) hs
  rw [← hmap, hlenmap] at hhit
  unfold CMatrixAllocator._getAllocatorBySize
  rw [if_pos hb]
  simp only [← hidef]
  by_cases hlt : i < m._perSizeAllocator.length
  · rw [if_pos hlt]
    by_cases heq :
        (m._perSizeAllocator.getD i (CPagedAllocator.mkPaged 0 0)).GetFixedBlockSize
          = bytes
    · rw [if_pos heq]
      have hmem : bytes ∈ bucketSizes m := hhit.mp ⟨hlt, by rw [← hgetD i]; exact heq⟩
      exact ⟨i, m, rfl, rfl, hile, hs, hlt, by rw [← hgetD i]; exact heq,
        fun _ => rfl, fun hnot => absurd hmem hnot⟩
    · rw [if_neg heq]
      have hnotmem : bytes ∉ bucketSizes m := by
        intro hmem
        obtain ⟨-, hg⟩ := hhit.mpr hmem
        exact heq (by rw [hgetD i]; exact hg)
      have hsizes : bucketSizes (CMatrixAllocator.mk m._maxElementsPerPage
            (insertAt i (CPagedAllocator.mkPaged m._maxElementsPerPage bytes)
              m._perSizeAllocator))
          = insertAt i bytes (bucketSizes m) := by
        unfold bucketSizes
        exact insertAt_map (fun a => a.GetFixedBlockSize) i _ m._perSizeAllocator
      refine ⟨i, _, rfl, rfl, hile, ?_, ?_, ?_,
        fun hmem => absurd hmem hnotmem, fun _ => hsizes⟩
      · rw [hsizes, hmap]
        exact insertAt_lowerBound_pairwise bytes (bucketSizes m) hs hnotmem
      · simp only [insertAt_length i _ m._perSizeAllocator hile]
        omega
      · rw [hsizes, insertAt_getD i bytes (bucketSizes m) 0 (by omega)]
  · rw [if_neg hlt]
    have hieq : i = m._perSizeAllocator.length := Nat.le_antisymm hile (Nat.not_lt.mp hlt)
    have hnotmem : bytes ∉ bucketSizes m := by
      intro hmem
      obtain ⟨hl, -⟩ := hhit.mpr hmem
      exact hlt hl
    have hsizes : bucketSizes (CMatrixAllocator.mk m._maxElementsPerPage
          (m._perSizeAllocator ++ [CPagedAllocator.mkPaged m._maxElementsPerPage bytes]))
        = insertAt i bytes (bucketSizes m) := by
      unfold bucketSizes
      rw [hieq]
      have hlm : m._perSizeAllocator.length
          = (m._perSizeAllocator.map (fun a => a.GetFixedBlockSize)).length := by
        simp
      rw [hlm, insertAt_at_length]
      simp [CPagedAllocator.mkPaged, CPagedAllocator.GetFixedBlockSize]
    refine ⟨m._perSizeAllocator.length, _, rfl, rfl, Nat.le_refl _, ?_, ?_, ?_,
      fun hmem => absurd hmem hnotmem, fun _ => by rw [hsizes, hieq]⟩
    · rw [hsizes, hmap]
      exact insertAt_lowerBound_pairwise bytes (bucketSizes m) hs hnotmem
    · simp
    · have := insertAt_getD i bytes (bucketSizes m) 0 (by omega)
      rw [hsizes, ← hieq]
      exact this

/-- `_getFreeAllocatorIndex` never changes the element size. -/
theorem getFreeAllocatorIndex_elementSize (raw : Option Nat) (s : CPagedAllocator) :
    ((s._getFreeAllocatorIndex raw).2)._elementSize = s._elementSize := by
  unfold CPagedAllocator._getFreeAllocatorIndex
  cases s._fullBuckets.findIdx? (fun b => b == false) with
  | some i => rfl
  | none =>
      cases raw with
      | none => rfl
      | some buffer => rfl

/-- `CPagedAllocator::Allocate` never changes the element size. -/
theorem pagedAllocate_elementSize (raw : Option Nat) (s : CPagedAllocator) :
    ((s.Allocate raw)).2._elementSize = s._elementSize := by
  have hg := getFreeAllocatorIndex_elementSize raw s
  unfold CPagedAllocator.Allocate
  cases hge : s._getFreeAllocatorIndex raw with
  | mk r s1 =>
      rw [hge] at hg
      cases r with
      | none => exact hg
      | some allocatorIndex =>
          dsimp only
          cases hm : freelist_malloc (s1._slabs.getD allocatorIndex
              (freelist_init 0 0)) s1._elementSize with
          | mk allocation a1 =>
              by_cases hsz : freelist_get_allocation_size a1 (allocation.getD 0)
                  = s1._elementSize
              · rw [if_pos hsz]
                cases hm2 : freelist_malloc a1 s1._elementSize with
                | mk nextAlloc a2 =>
                    cases nextAlloc with
                    | none => exact hg
                    | some q => exact hg
              · rw [if_neg hsz]
                exact hg

/-- Matrix `Allocate` on a sorted matrix: sortedness and the per-page budget
are preserved, the requested size ends up present, and the column sequence is
unchanged on a hit and grows by exactly the new bucket on a miss. -/
theorem matrixAllocate_spec (raw : Option Nat) (bytes : Nat)
    (m : CMatrixAllocator) (hb : 0 < bytes)
    (hs : (bucketSizes m).Pairwise (· < ·)) :
    ((CMatrixAllocator.Allocate raw bytes m).2._maxElementsPerPage
        = m._maxElementsPerPage) ∧
    (bucketSizes (CMatrixAllocator.Allocate raw bytes m).2).Pairwise (· < ·) ∧
    (bytes ∈ bucketSizes m →
      bucketSizes (CMatrixAllocator.Allocate raw bytes m).2 = bucketSizes m) ∧
    (bytes ∉ bucketSizes m → ∃ i, i ≤ (bucketSizes m).length ∧
      bucketSizes (CMatrixAllocator.Allocate raw bytes m).2
        = insertAt i bytes (bucketSizes m)) := by
  obtain ⟨i, m2, heq, hmaxE, hilem, hsorted, hlen, hat, hhit, hmiss⟩ :=
    getAllocatorBySize_spec m bytes hb hs
  have hsz2 : bucketSizes ((CMatrixAllocator.Allocate raw bytes m).2)
      = bucketSizes m2 := by
    have hmapD : (bucketSizes m2).getD i
          ((CPagedAllocator.mkPaged 0 0).GetFixedBlockSize)
        = (m2._perSizeAllocator.getD i (CPagedAllocator.mkPaged 0 0)).GetFixedBlockSize :=
      getD_map (fun a : CPagedAllocator => a.GetFixedBlockSize) m2._perSizeAllocator i
        (CPagedAllocator.mkPaged 0 0)
    have hget : (m2._perSizeAllocator.getD i
          (CPagedAllocator.mkPaged 0 0)).GetFixedBlockSize = bytes := by
      rw [← hmapD]
      simpa [CPagedAllocator.mkPaged, CPagedAllocator.GetFixedBlockSize] using hat
    have helem : ((m2._perSizeAllocator.getD i
          (CPagedAllocator.mkPaged 0 0)).Allocate raw).2.GetFixedBlockSize
        = bytes := by
      unfold CPagedAllocator.GetFixedBlockSize at hget ⊢
      rw [pagedAllocate_elementSize]
      exact hget
    unfold CMatrixAllocator.Allocate
    rw [heq]
    dsimp only
    unfold bucketSizes
    rw [map_set_comm, helem]
    refine set_getD_self _ i bytes 0 (by simpa using hlen) ?_
    have hat2 : (bucketSizes m2).getD i 0 = bytes := hat
    simpa [bucketSizes] using hat2
  have hmaxE2 : (CMatrixAllocator.Allocate raw bytes m).2._maxElementsPerPage
      = m2._maxElementsPerPage := by
    unfold CMatrixAllocator.Allocate
    rw [heq]
  refine ⟨hmaxE2.trans hmaxE, hsz2 ▸ hsorted, ?_, ?_⟩
  · intro hmem
    rw [hsz2, hhit hmem]
  · intro hnot
    refine ⟨i, ?_, by rw [hsz2, hmiss hnot]⟩
    simpa [bucketSizes] using hilem

/-- A sequence of `Allocate` calls, one per requested size (`raw` is the raw
allocator's response used whenever a bucket needs a fresh page). -/
def matrixAllocAll (raw : Option Nat) (szs : List Nat) (m : CMatrixAllocator) :
    CMatrixAllocator :=
  szs.foldl (fun acc bytes => (CMatrixAllocator.Allocate raw bytes acc).2) m

/-- Allocating a list of fresh, pairwise-distinct, positive sizes grows the
column sequence by exactly one bucket per size. -/
theorem matrixAllocAll_count (raw : Option Nat) (szs : List Nat) :
    ∀ m : CMatrixAllocator, (∀ x ∈ szs, 0 < x) → szs.Nodup →
    (bucketSizes m).Pairwise (· < ·) → (∀ x ∈ szs, x ∉ bucketSizes m) →
    (matrixAllocAll raw szs m)._perSizeAllocator.length
      = m._perSizeAllocator.length + szs.length := by
  induction szs with
  | nil =>
      intro m _ _ _ _
      simp [matrixAllocAll]
  | cons b rest ih =>
      intro m hpos hnd hs hfresh
      have hb : 0 < b := hpos b (List.mem_cons_self b rest)
      obtain ⟨hmax, hsort2, hhit, hmiss⟩ := matrixAllocate_spec raw b m hb hs
      have hbnot : b ∉ bucketSizes m := hfresh b (List.mem_cons_self b rest)
      obtain ⟨i, hile, hins⟩ := hmiss hbnot
      have hstep : matrixAllocAll raw (b :: rest) m
          = matrixAllocAll raw rest (CMatrixAllocator.Allocate raw b m).2 := rfl
      have hlen1 : (CMatrixAllocator.Allocate raw b m).2._perSizeAllocator.length
          = m._perSizeAllocator.length + 1 := by
        have h := congrArg List.length hins
        rw [insertAt_length i b (bucketSizes m) hile] at h
        simpa [bucketSizes] using h
      have hfresh1 : ∀ x ∈ rest, x ∉ bucketSizes (CMatrixAllocator.Allocate raw b m).2 := by
        intro x hx hxmem
        rw [hins] at hxmem
        rcases (insertAt_mem i b (bucketSizes m) x).mp hxmem with rfl | hxm
        · exact (List.nodup_cons.mp hnd).1 hx
        · exact hfresh x (List.mem_cons_of_mem b hx) hxm
      rw [hstep,
        ih _ (fun x hx => hpos x (List.mem_cons_of_mem b hx))
          (List.nodup_cons.mp hnd).2 hsort2 hfresh1,
        hlen1]
      simp [Nat.add_assoc, Nat.add_comm 1 rest.length]

/-! ### Claim about the matrix allocator (C3) -/

/-- C3. With a strictly ascending column sequence, `_getAllocatorBySize`
forwards to the existing bucket (sequence untouched) when one with
`elementSize == bytes` exists and otherwise inserts the freshly-constructed
slab allocator at the lower-bound position; strict ascending order — hence at
most one bucket per size — is always preserved, and starting from a fresh
matrix, allocating `k` distinct positive sizes yields exactly `k` buckets. -/
theorem matrix_buckets_strictly_ascending :
    (∀ (m : CMatrixAllocator) (bytes : Nat),
      0 < bytes → (bucketSizes m).Pairwise (· < ·) →
      ∃ i m2, m._getAllocatorBySize bytes = .ok (i, m2) ∧
        (bucketSizes m2).Pairwise (· < ·) ∧
        (bucketSizes m2).Nodup ∧
        (bucketSizes m2).getD i 0 = bytes ∧
        (bytes ∈ bucketSizes m → m2 = m) ∧
        (bytes ∉ bucketSizes m →
          bucketSizes m2 = insertAt i bytes (bucketSizes m))) ∧
    (∀ (maxE : Nat) (m0 : CMatrixAllocator) (raw : Option Nat) (szs : List Nat),
      CMatrixAllocator.mkMatrix maxE = .ok m0 →
      (∀ x ∈ szs, 0 < x) → szs.Nodup →
      (matrixAllocAll raw szs m0)._perSizeAllocator.length = szs.length) := by
  constructor
  · intro m bytes hb hs
    obtain ⟨i, m2, heq, -, -, hsorted, -, hat, hhit, hmiss⟩ :=
      getAllocatorBySize_spec m bytes hb hs
    exact ⟨i, m2, heq, hsorted, hsorted.imp Nat.ne_of_lt, hat, hhit, hmiss⟩
  · intro maxE m0 raw szs hmk hpos hnd
    have hm0 : m0 = { _maxElementsPerPage := maxE, _perSizeAllocator := [] } := by
      unfold CMatrixAllocator.mkMatrix at hmk
      by_cases h : maxE > 0
      · rw [if_pos h] at hmk
        cases hmk
        rfl
      · rw [if_neg h] at hmk
        exact absurd hmk (by simp)
    subst hm0
    have := matrixAllocAll_count raw szs
      { _maxElementsPerPage := maxE, _perSizeAllocator := [] }
      hpos hnd (by simp [bucketSizes]) (by simp [bucketSizes])
    simpa using this

/-- Witness for C3: from a fresh matrix with `maxElementsPerPage = 4`,
allocating the three distinct sizes 32, 8 and 16 yields three buckets. -/
theorem matrix_buckets_strictly_ascending_witness :
    (matrixAllocAll (some 4096) [32, 8, 16]
        { _maxElementsPerPage := 4, _perSizeAllocator := [] })._perSizeAllocator.length
      = 3 := by
  have h := matrix_buckets_strictly_ascending.2 4
    { _maxElementsPerPage := 4, _perSizeAllocator := [] } (some 4096) [32, 8, 16]
    rfl (by decide) (by decide)
  simpa using h

/-! ## `CEntityFactory.h` — `CEntityFactory` -/

/-- The compile-time data of a registered entity class `T`: `sizeof(T)`,
`alignof(T)`, its `canEverTick` choice, and the `(sizeof, alignof)` pairs of
the `NewComponent<..>` calls its constructor performs, in order. -/
structure EntityClassDecl where
  size : Nat
  align : Nat
  canEverTick : Bool
  ctorComponents : List (Nat × Nat)
deriving DecidableEq, Repr

/-- Runs the `NewComponent` calls of a class constructor body, in order. -/
def runCtorComponents : CWorldObject → List (Nat × Nat) → Outcome CWorldObject
  | w, [] => .ok w
  | w, (s, a) :: rest =>
      match w.NewComponent s a with
      | .ok (_, w2) => runCtorComponents w2 rest
      | .thrown e => .thrown e
      | .assertionFailed => .assertionFailed

/-- Running `T`'s full constructor at address `addr`: the `CWorldObject` base
constructor followed by the constructor body's `NewComponent` calls. -/
def constructEntity (addr : Nat) (T : EntityClassDecl)
    (initializer : DWorldObjectInitializer) : Outcome CWorldObject :=
  match CWorldObject.construct addr initializer T.canEverTick with
  | .ok w0 => runCtorComponents w0 T.ctorComponents
  | .thrown e => .thrown e
  | .assertionFailed => .assertionFailed

/-- State of `CEntityFactory`: the `std::unordered_map` from type name to the
stored CDO object (the constructor closure is determined by the class
itself), modelled as an association list. -/
structure CEntityFactory where
  _classNameToCreateFnAndCdo : List (String × CWorldObject)
deriving DecidableEq

/-- `CEntityFactory::RegisterEntityClass<T>(typeName)`: asserts the name is
not registered yet, then stores the CDO built by running `T`'s constructor
once with initializer `{nullptr, sizeof(T), alignof(T), nullptr}`
(`std::make_unique<T>` places it at some heap address `heapAddr`). -/
def CEntityFactory.RegisterEntityClass (f : CEntityFactory) (heapAddr : Nat)
    (typeName : String) (T : EntityClassDecl) : Outcome CEntityFactory :=
  if (f._classNameToCreateFnAndCdo.lookup typeName).isSome then
    .assertionFailed
  else
    match constructEntity heapAddr T ⟨none, T.size, T.align, 0⟩ with
    | .ok w => .ok ⟨(typeName, w) :: f._classNameToCreateFnAndCdo⟩
    | .thrown e => .thrown e
    | .assertionFailed => .assertionFailed

/-- `CEntityFactory::GetCDOFromTypename(typeName)`: asserts the type is
registered and returns the stored object through its `IWorldObjectCDO`
interface (its `CWorldObjectCDO` base). -/
def CEntityFactory.GetCDOFromTypename (f : CEntityFactory) (typeName : String) :
    Outcome CWorldObjectCDO :=
  match f._classNameToCreateFnAndCdo.lookup typeName with
  | some w => .ok w.cdoBase
  | none => .assertionFailed

/-- `NewComponent` never changes the class size, class alignment or CDO-mode
flag of the object's `CWorldObjectCDO` base. -/
theorem newComponent_preserves_class_meta (w : CWorldObject) (size align : Nat)
    (r : ComponentAlloc) (w2 : CWorldObject)
    (h : w.NewComponent size align = .ok (r, w2)) :
    w2.cdoBase._classSize = w.cdoBase._classSize
      ∧ w2.cdoBase._classAlignmemt = w.cdoBase._classAlignmemt
      ∧ w2.cdoBase._isConstructingCdo = w.cdoBase._isConstructingCdo := by
  unfold CWorldObject.NewComponent at h
  by_cases hc : w.IsCDO = true
  · rw [if_pos hc] at h
    unfold CWorldObjectCDO.StaticRegisterNewComponentUnknown at h
    by_cases hr : (w.cdoBase._isConstructingCdo = true ∧ size > 0
        ∧ ((align == 1) || IsPowerOfTwo align) = true ∧ size ≥ align)
    · rw [if_pos hr] at h
      cases h
      exact ⟨rfl, rfl, rfl⟩
    · rw [if_neg hr] at h
      exact absurd h (by simp)
  · rw [if_neg hc] at h
    cases hm : w.container.MallocComponent size align with
    | ok pc =>
        obtain ⟨po, c2⟩ := pc
        rw [hm] at h
        cases po with
        | some p => cases h; exact ⟨rfl, rfl, rfl⟩
        | none => cases h; exact ⟨rfl, rfl, rfl⟩
    | thrown e => rw [hm] at h; exact absurd h (by simp)
    | assertionFailed => rw [hm] at h; exact absurd h (by simp)

/-- `runCtorComponents` never changes the class size, class alignment or
CDO-mode flag. -/
theorem runCtorComponents_preserves_class_meta (comps : List (Nat × Nat)) :
    ∀ (w w2 : CWorldObject), runCtorComponents w comps = .ok w2 →
    w2.cdoBase._classSize = w.cdoBase._classSize
      ∧ w2.cdoBase._classAlignmemt = w.cdoBase._classAlignmemt
      ∧ w2.cdoBase._isConstructingCdo = w.cdoBase._isConstructingCdo := by
  induction comps with
  | nil =>
      intro w w2 h
      cases h
      exact ⟨rfl, rfl, rfl⟩
  | cons sa rest ih =>
      intro w w2 h
      obtain ⟨s, a⟩ := sa
      unfold runCtorComponents at h
      cases hm : w.NewComponent s a with
      | ok pw =>
          obtain ⟨r, w1⟩ := pw
          rw [hm] at h
          have h1 := newComponent_preserves_class_meta w s a r w1 hm
          have h2 := ih w1 w2 h
          exact ⟨h2.1.trans h1.1, h2.2.1.trans h1.2.1, h2.2.2.trans h1.2.2⟩
      | thrown e => rw [hm] at h; exact absurd h (by simp)
      | assertionFailed => rw [hm] at h; exact absurd h (by simp)

/-! ### Claim about the factory round-trip (C6) -/

/-- C6. If `RegisterEntityClass<T>(name)` succeeds, then
`GetCDOFromTypename(name)` returns a CDO with `ClassSize() = sizeof(T)` and
`ClassAlignment() = alignof(T)`, and when `T`'s constructor registers no
components its component list is empty. -/
theorem register_get_cdo_round_trip (f : CEntityFactory) (heapAddr : Nat)
    (typeName : String) (T : EntityClassDecl) (f2 : CEntityFactory)
    (h : f.RegisterEntityClass heapAddr typeName T = .ok f2) :
    ∃ cdo : CWorldObjectCDO,
      f2.GetCDOFromTypename typeName = .ok cdo ∧
      cdo.GetClassSize = T.size ∧
      cdo.GetClassAlignment = T.align ∧
      (T.ctorComponents = [] → cdo.GetCDOComponentsInfo = []) := by
  unfold CEntityFactory.RegisterEntityClass at h
  by_cases hdup : (f._classNameToCreateFnAndCdo.lookup typeName).isSome
  · rw [if_pos hdup] at h
    exact absurd h (by simp)
  · rw [if_neg hdup] at h
    cases hw : constructEntity heapAddr T ⟨none, T.size, T.align, 0⟩ with
    | ok w =>
        rw [hw] at h
        cases h
        refine ⟨w.cdoBase, ?_, ?_⟩
        · unfold CEntityFactory.GetCDOFromTypename
          simp [List.lookup]
        · unfold constructEntity at hw
          unfold CWorldObject.construct at hw
          unfold CWorldObjectCDO.mkCdo at hw
          by_cases hcs : T.size > 0
          · rw [if_pos hcs] at hw
            cases hcont : mkContainer heapAddr none with
            | ok container =>
                dsimp only at hw
                rw [hcont] at hw
                have hpres := runCtorComponents_preserves_class_meta
                  T.ctorComponents _ w hw
                refine ⟨hpres.1, hpres.2.1, ?_⟩
                intro hempty
                rw [hempty] at hw
                cases hw
                rfl
            | thrown e => dsimp only at hw; rw [hcont] at hw; exact absurd hw (by simp)
            | assertionFailed =>
                dsimp only at hw; rw [hcont] at hw; exact absurd hw (by simp)
          · rw [if_neg hcs] at hw
            exact absurd hw (by simp)
    | thrown e => rw [hw] at h; exact absurd h (by simp)
    | assertionFailed => rw [hw] at h; exact absurd h (by simp)

/-- Witness for C6 at a concrete factory: registering a class with
`sizeof = 64`, `alignof = 8` and no constructor components in the empty
factory, then looking its CDO up. -/
theorem register_get_cdo_round_trip_witness :
    ∃ cdo : CWorldObjectCDO,
      (CEntityFactory.mk []).RegisterEntityClass 4096 "T" ⟨64, 8, false, []⟩
          = .ok (CEntityFactory.mk [("T",
            { cdoBase := { _components := [], _isConstructingCdo := true,
                           _classSize := 64, _classAlignmemt := 8 },
              _canEverTick := false, PendingDestroy := false,
              container := { _worldObjectComponentsPtrBegin := 0,
                             _worldObjectComponentsPtrEnd := 0,
                             _allocator := gpalloc_zero } })]) ∧
      (CEntityFactory.mk [("T",
            { cdoBase := { _components := [], _isConstructingCdo := true,
                           _classSize := 64, _classAlignmemt := 8 },
              _canEverTick := false, PendingDestroy := false,
              container := { _worldObjectComponentsPtrBegin := 0,
                             _worldObjectComponentsPtrEnd := 0,
                             _allocator := gpalloc_zero } })]).GetCDOFromTypename "T"
          = .ok cdo ∧
      cdo.GetClassSize = 64 ∧
      cdo.GetClassAlignment = 8 ∧
      cdo.GetCDOComponentsInfo = [] := by
  have hreg : (CEntityFactory.mk []).RegisterEntityClass 4096 "T" ⟨64, 8, false, []⟩
      = .ok (CEntityFactory.mk [("T",
        { cdoBase := { _components := [], _isConstructingCdo := true,
                       _classSize := 64, _classAlignmemt := 8 },
          _canEverTick := false, PendingDestroy := false,
          container := { _worldObjectComponentsPtrBegin := 0,
                         _worldObjectComponentsPtrEnd := 0,
                         _allocator := gpalloc_zero } })]) := by decide
  obtain ⟨cdo, hget, hs, ha, hcomps⟩ :=
    register_get_cdo_round_trip (CEntityFactory.mk []) 4096 "T" ⟨64, 8, false, []⟩
      _ hreg
  exact ⟨cdo, hreg, hget, hs, ha, hcomps rfl⟩

/-! ### Claims about the ID generator (C5, C7) -/

/-- C5. `Generate()` returns the front of the released queue (FIFO) when that
queue is non-empty, otherwise returns `nextId` and increments it, and fails
exactly when the queue is empty and `nextId > maxId`; for a generator
constructed with `maxId = 0`, the first `Generate` succeeds returning 0 and a
second `Generate` (with nothing released) fails. -/
theorem generate_prefers_released_then_increments_and_exhausts :
    (∀ (g : IDGenerator) (i : Nat) (rest : List Nat),
        g.released_ids = i :: rest →
        g.Generate = .ok (i, { g with released_ids := rest, in_use := insert i g.in_use })) ∧
    (∀ g : IDGenerator, g.released_ids = [] → g.max_id < g.next_id →
        g.Generate = .thrown .runtimeError) ∧
    (∀ g : IDGenerator, g.released_ids = [] → g.next_id ≤ g.max_id →
        g.Generate = .ok (g.next_id,
          { g with next_id := g.next_id + 1, in_use := insert g.next_id g.in_use })) ∧
    (∃ g1 : IDGenerator, (IDGenerator.mkGen 0).Generate = .ok (0, g1) ∧
        g1.Generate = .thrown .runtimeError) := by
  refine ⟨?_, ?_, ?_, ?_⟩
  · intro g i rest h
    simp [IDGenerator.Generate, h]
  · intro g h hlt
    simp [IDGenerator.Generate, h, hlt]
  · intro g h hle
    simp [IDGenerator.Generate, h, Nat.not_lt.mpr hle]
  · exact ⟨{ released_ids := [], in_use := {0}, next_id := 1, max_id := 0 }, by decide, by decide⟩

/-- Witness for C5: instantiates the theorem at concrete states. -/
theorem generate_prefers_released_then_increments_and_exhausts_witness :
    ({ released_ids := [7, 3], in_use := {7, 3}, next_id := 9, max_id := 10 } :
        IDGenerator).Generate
      = .ok (7, { released_ids := [3], in_use := {7, 3}, next_id := 9, max_id := 10 }) ∧
    ({ released_ids := [], in_use := ∅, next_id := 5, max_id := 4 } :
        IDGenerator).Generate = .thrown .runtimeError := by
  constructor
  · have h := generate_prefers_released_then_increments_and_exhausts.1
      { released_ids := [7, 3], in_use := {7, 3}, next_id := 9, max_id := 10 } 7 [3] rfl
    rw [h]
    decide
  · exact generate_prefers_released_then_increments_and_exhausts.2.1 _ rfl (by decide)

/-- C7 counterexample: releasing an id that is not in use does NOT fail with a
fatal assertion — the code throws `std::invalid_argument`, a catchable
exception surfaced to the caller. Evaluated at a fresh generator and id 0. -/
theorem release_unknown_id_is_not_fatal_assertion :
    ¬ ((IDGenerator.mkGen 10).Release 0 = .assertionFailed) ∧
    (IDGenerator.mkGen 10).Release 0 = .thrown .invalidArgument := by
  constructor
  · decide
  · decide

/-- C7 amended. `Release(id)` with an id that is not currently in use throws
`std::invalid_argument` — an exception surfaced to (and catchable by) the
caller, not a fatal assertion — and the generator state is unchanged. -/
theorem release_unknown_id_throws_invalid_argument
    (g : IDGenerator) (id : Nat) (h : id ∉ g.in_use) :
    g.Release id = .thrown .invalidArgument := by
  simp [IDGenerator.Release, h]

/-- Witness for the amended C7 theorem at a concrete state. -/
theorem release_unknown_id_throws_invalid_argument_witness :
    (IDGenerator.mkGen 5).Release 3 = .thrown .invalidArgument :=
  release_unknown_id_throws_invalid_argument (IDGenerator.mkGen 5) 3 (by decide)

end Necs
